import Mathlib

/-!
# Verification of the askmi-api RBAC layer

Shallow embedding of the authorization decision engine of the repository:
the role-permission registry (`src/types/permissions.ts`), the pure
authorization helpers (`canAccessResource`, `canAccessResourceOrOwn`,
`isResourceOwner` in `src/routes/auth.ts` / utils), the token codec
wrappers (`jwtService.generateToken` / `verifyToken`), and the request
gate middleware chain (`authenticate`, `authorize`, `requireAnyRole`,
`requireAllRoles`, `requireOwnershipOrRole` in
`src/middleware/authMiddleware.ts`).

JavaScript semantics that matter here and are modelled explicitly:
- optional string fields are `Option String`, and JS truthiness of a
  string value (`!s`) is false exactly for `undefined` and the empty
  string, so guards like `!resource.ownerId` are modelled as
  `strTruthy`, which is `false` on `none` and on `some ""`;
- `String.prototype.split(' ')` with a single-character separator is
  `jsSplit`, keeping empty segments exactly as JS does;
- `String.prototype.includes(sub)` is `strIncludes`.
-/

namespace AskMi

/-! ## JavaScript string primitives -/

/-- Whether `sub` occurs at the start of `l` (character-list version of
`String.prototype.startsWith`). -/
def startsWithChars : List Char → List Char → Bool
  | [], _ => true
  | _ :: _, [] => false
  | a :: as, b :: bs => a == b && startsWithChars as bs

/-- Whether `sub` occurs anywhere inside `hay` (character lists). -/
def containsChars (sub : List Char) : List Char → Bool
  | [] => startsWithChars sub []
  | l@(_ :: t) => startsWithChars sub l || containsChars sub t

/-- JS `hay.includes(sub)`. -/
def strIncludes (hay sub : String) : Bool :=
  containsChars sub.data hay.data

/-- Auxiliary splitter: accumulates the current segment (reversed). -/
def splitCharAux (sep : Char) : List Char → List Char → List String
  | [], acc => [String.mk acc.reverse]
  | c :: cs, acc =>
    if c == sep then String.mk acc.reverse :: splitCharAux sep cs []
    else splitCharAux sep cs (c :: acc)

/-- JS `s.split(sep)` for a single-character separator: keeps empty
segments, and `"".split(sep) = [""]`. -/
def jsSplit (s : String) (sep : Char) : List String :=
  splitCharAux sep s.data []

/-- JS truthiness of an optional string: `undefined` and `""` are falsy. -/
def strTruthy : Option String → Bool
  | none => false
  | some s => s != ""

/-! ## Data model (`src/types/permissions.ts`) -/

/-- The `Permission` string enum. -/
inductive Permission where
  | USERS_READ_OWN
  | USERS_WRITE_OWN
  | USERS_READ_ALL
  | USERS_WRITE_ALL
  | USERS_DELETE_ALL
  | CONTENT_CREATE_OWN
  | CONTENT_WRITE_OWN
  | CONTENT_DELETE_OWN
  | CONTENT_READ_ALL
  | CONTENT_WRITE_ALL
  | CONTENT_DELETE_ALL
  | SETTINGS_MANAGE
  | ANALYTICS_VIEW
  deriving DecidableEq, Repr

/-- The string value of each member of the `Permission` enum. -/
def Permission.value : Permission → String
  | .USERS_READ_OWN => "users:read:own"
  | .USERS_WRITE_OWN => "users:write:own"
  | .USERS_READ_ALL => "users:read:all"
  | .USERS_WRITE_ALL => "users:write:all"
  | .USERS_DELETE_ALL => "users:delete:all"
  | .CONTENT_CREATE_OWN => "content:create:own"
  | .CONTENT_WRITE_OWN => "content:write:own"
  | .CONTENT_DELETE_OWN => "content:delete:own"
  | .CONTENT_READ_ALL => "content:read:all"
  | .CONTENT_WRITE_ALL => "content:write:all"
  | .CONTENT_DELETE_ALL => "content:delete:all"
  | .SETTINGS_MANAGE => "settings:manage"
  | .ANALYTICS_VIEW => "analytics:view"

/-- `ROLE_PERMISSIONS[UserRole.ADMIN]`. -/
def adminPermissions : List Permission :=
  [.USERS_READ_OWN, .USERS_WRITE_OWN, .USERS_READ_ALL, .USERS_WRITE_ALL,
   .USERS_DELETE_ALL, .CONTENT_CREATE_OWN, .CONTENT_WRITE_OWN,
   .CONTENT_DELETE_OWN, .CONTENT_READ_ALL, .CONTENT_WRITE_ALL,
   .CONTENT_DELETE_ALL, .SETTINGS_MANAGE, .ANALYTICS_VIEW]

/-- `ROLE_PERMISSIONS[UserRole.INFLUENCER]`. -/
def influencerPermissions : List Permission :=
  [.USERS_READ_OWN, .USERS_WRITE_OWN, .CONTENT_CREATE_OWN,
   .CONTENT_WRITE_OWN, .CONTENT_DELETE_OWN, .CONTENT_READ_ALL]

/-- `ROLE_PERMISSIONS[UserRole.USER]`. -/
def userPermissions : List Permission :=
  [.USERS_READ_OWN, .USERS_WRITE_OWN, .CONTENT_CREATE_OWN,
   .CONTENT_WRITE_OWN, .CONTENT_DELETE_OWN, .CONTENT_READ_ALL]

/-- The object lookup `ROLE_PERMISSIONS[role as UserRole]`, simplified
to a finite map on role strings: keys are the three `UserRole` enum
values, any other string misses. This ignores the prototype chain of
the JS object literal — `rolePermissionsLookup` below is the full
lookup, and `roleHasPermissionJs_agrees` shows the two coincide on
every role string that is not an `Object.prototype` property name. -/
def lookupRolePermissions (role : String) : Option (List Permission) :=
  if role = "admin" then some adminPermissions
  else if role = "influencer" then some influencerPermissions
  else if role = "user" then some userPermissions
  else none

/-- `roleHasPermission` (`src/types/permissions.ts`): deny when the role
is not a key of `ROLE_PERMISSIONS`, otherwise membership in its list. -/
def roleHasPermission (role : String) (permission : Permission) : Bool :=
  match lookupRolePermissions role with
  | none => false
  | some perms => perms.contains permission

/-- `isAdmin` (`src/types/permissions.ts`). -/
def isAdmin (role : String) : Bool :=
  role == "admin"

/-! ## Authorization engine (`canAccessResource` and friends) -/

/-- The `User` interface: `{ userId, email, role }`. -/
structure User where
  userId : String
  email : String
  role : String
  deriving DecidableEq, Repr

/-- The `Resource` interface: the engine reads only `ownerId`, an
optional string field. -/
structure Resource where
  ownerId : Option String
  deriving DecidableEq, Repr

/-- `canAccessResource` with the role-permission lookup as an explicit
parameter; the repository function is the instantiation
`canAccessResource = canAccessResourceWith roleHasPermission`. The
admin branch returns before `hasPerm` is ever applied. -/
def canAccessResourceWith (hasPerm : String → Permission → Bool)
    (user : User) (resource : Option Resource) (action : Permission) : Bool :=
  if isAdmin user.role then
    true
  else if !hasPerm user.role action then
    false
  else if strIncludes action.value ":own" then
    match resource with
    | none => false
    | some r =>
      match r.ownerId with
      | none => false
      | some oid => if oid = "" then false else oid == user.userId
  else
    true

/-- `canAccessResource` (`src/routes/auth.ts` utils): admin bypass, then
permission lookup, then ownership check for `:own`-scoped actions.
The `!resource || !resource.ownerId` guard rejects `none` and, by JS
truthiness, also an empty-string `ownerId`. -/
def canAccessResource (user : User) (resource : Option Resource)
    (action : Permission) : Bool :=
  canAccessResourceWith roleHasPermission user resource action

/-- `isResourceOwner`: `!resourceOwnerId` is truthiness, so `none` and
`some ""` both fail; otherwise strict string equality with `userId`. -/
def isResourceOwner (userId : String) (resourceOwnerId : Option String) : Bool :=
  match resourceOwnerId with
  | none => false
  | some oid => if oid = "" then false else userId == oid

/-- `canAccessResourceOrOwn`: admin bypass; if the caller owns the
resource, defer to `ownAction`; otherwise defer to `allAction`. -/
def canAccessResourceOrOwn (user : User) (resource : Option Resource)
    (ownAction allAction : Permission) : Bool :=
  if isAdmin user.role then
    true
  else
    match resource with
    | some r =>
      if strTruthy r.ownerId && isResourceOwner user.userId r.ownerId then
        roleHasPermission user.role ownAction
      else
        roleHasPermission user.role allAction
    | none => roleHasPermission user.role allAction

/-- `getRolePermissions` (`src/routes/auth.ts` utils): re-declares the
same role→permission map inline and returns `permissions[userRole] || []`.
Like `lookupRolePermissions` this simplifies the object lookup to a
finite map; `getRolePermissionsJs` below keeps the prototype chain, and
`getRolePermissionsJs_agrees` shows the two coincide away from
`Object.prototype` property names. -/
def getRolePermissions (role : String) : List Permission :=
  if role = "admin" then adminPermissions
  else if role = "influencer" then influencerPermissions
  else if role = "user" then userPermissions
  else []

/-- Property names every plain JS object literal inherits from
`Object.prototype`: looking any of these up on `ROLE_PERMISSIONS` (or on
the inline `permissions` object of `getRolePermissions`) yields a truthy
inherited value — a function, or the prototype object for `"__proto__"`
— rather than `undefined`. -/
def objectPrototypeKeys : List String :=
  ["constructor", "hasOwnProperty", "isPrototypeOf", "propertyIsEnumerable",
   "toLocaleString", "toString", "valueOf", "__proto__",
   "__defineGetter__", "__defineSetter__", "__lookupGetter__", "__lookupSetter__"]

/-- Result of the JS property access on the role→permissions object
literal: an own key yields its permission list, an `Object.prototype`
key yields a truthy inherited non-array value, any other key yields
`undefined`. -/
inductive JsLookup where
  | undefinedVal
  | perms (l : List Permission)
  | inherited
  deriving DecidableEq, Repr

/-- The full JS lookup `ROLE_PERMISSIONS[role as UserRole]` (identical
for the inline `permissions[userRole]` in `getRolePermissions`): own
keys first, then the prototype chain, then `undefined`. -/
def rolePermissionsLookup (role : String) : JsLookup :=
  if role = "admin" then .perms adminPermissions
  else if role = "influencer" then .perms influencerPermissions
  else if role = "user" then .perms userPermissions
  else if objectPrototypeKeys.contains role then .inherited
  else .undefinedVal

/-- Message of the `TypeError` raised when `.includes` is called on an
inherited non-array value. -/
def includesTypeErrorMsg : String :=
  "TypeError: ROLE_PERMISSIONS[userRole].includes is not a function"

/-- `roleHasPermission` under the full JS lookup: `undefined` is falsy,
so the `!ROLE_PERMISSIONS[userRole]` guard returns `false`; an inherited
value is truthy, so the guard is passed and `.includes` is called on a
non-array — a thrown `TypeError`, modelled as `Except.error`; an own key
tests membership. -/
def roleHasPermissionJs (role : String) (permission : Permission) :
    Except String Bool :=
  match rolePermissionsLookup role with
  | .undefinedVal => .ok false
  | .inherited => .error includesTypeErrorMsg
  | .perms permsList => .ok (permsList.contains permission)

/-- `getRolePermissions` under the full JS lookup:
`permissions[userRole] || []` replaces only the falsy `undefined` with
`[]`; a truthy inherited value is returned as-is. -/
def getRolePermissionsJs (role : String) : JsLookup :=
  match rolePermissionsLookup role with
  | .undefinedVal => .perms []
  | v => v

/-! ## Token codec (`src/services/jwtService.ts`) -/

/-- The `JWTPayload` interface. -/
structure JWTPayload where
  userId : String
  email : String
  role : String
  deriving DecidableEq, Repr

/-- The fields of `UserWithoutPassword` that the token codec reads. -/
structure UserWithoutPassword where
  id : String
  email : String
  role : String
  deriving DecidableEq, Repr

/-- Modelled from the spec: the `jsonwebtoken` library (`jwt.sign` /
`jwt.verify`) is an external dependency, not part of the repository, so
the signed token is modelled after §4.2 and §6 of the specification as a
self-contained credential carrying the payload, issued-at and expiry
claims, and the signature (represented by the secret that produced it). -/
structure SignedToken where
  payload : JWTPayload
  issuedAt : Nat
  expiry : Nat
  signedWith : String
  deriving DecidableEq, Repr

/-- Modelled from the spec: `jwt.sign(payload, secret, { expiresIn })` —
stamps the payload with an expiry of `issuedAt + expiresIn` and signs it
with `secret`. -/
def jwtSign (payload : JWTPayload) (secret : String) (issuedAt expiresIn : Nat) :
    SignedToken :=
  { payload := payload, issuedAt := issuedAt,
    expiry := issuedAt + expiresIn, signedWith := secret }

/-- Modelled from the spec: `jwt.verify(token, secret)` — checks the
signature against `secret` and that the expiry has not elapsed; any
failure is the null sentinel. -/
def jwtVerify (token : SignedToken) (secret : String) (now : Nat) :
    Option JWTPayload :=
  if token.signedWith == secret && decide (now < token.expiry) then
    some token.payload
  else
    none

/-- The process-wide codec configuration: the signing secret and the
expiry duration, loaded once at startup. -/
structure JWTConfig where
  secret : String
  expiresIn : Nat
  deriving DecidableEq, Repr

/-- `jwtService.generateToken`: builds the payload
`{ userId: user.id, email: user.email, role: user.role }` and signs it. -/
def generateToken (cfg : JWTConfig) (user : UserWithoutPassword) (now : Nat) :
    SignedToken :=
  jwtSign { userId := user.id, email := user.email, role := user.role }
    cfg.secret now cfg.expiresIn

/-- `jwtService.verifyToken`: verifies with the configured secret,
returning the decoded payload or `none`. -/
def verifyToken (cfg : JWTConfig) (token : SignedToken) (now : Nat) :
    Option JWTPayload :=
  jwtVerify token cfg.secret now

/-! ## Request gate (`src/middleware/authMiddleware.ts`) -/

/-- Outcome of the `authenticate` middleware: either a rejection
(`res.status(c).json({ message })` followed by `return`) or a call to
`next()` with the user attached to the request. -/
inductive AuthOutcome where
  | reject (status : Nat) (message : String)
  | proceed (user : User)
  deriving DecidableEq, Repr

/-- Outcome of a role/ownership gate middleware: rejection or `next()`. -/
inductive GateResult where
  | reject (status : Nat) (message : String)
  | pass
  deriving DecidableEq, Repr

/-- The user record `prisma.user.findUnique` selects in `authenticate`. -/
structure DbUser where
  id : String
  email : String
  role : String
  isApproved : Bool
  deriving DecidableEq, Repr

/-- Message of the missing-header rejection in `authenticate`. -/
def noTokenMsg : String :=
  "No token provided. Authorization header is required."

/-- Message of the malformed-header rejection in `authenticate`. -/
def invalidFormatMsg : String :=
  "Invalid token format. Use: Bearer <token>"

/-- Message of the failed-verification rejection in `authenticate`. -/
def invalidTokenMsg : String :=
  "Invalid or expired token"

/-- Message of the approval-gate rejection in `authenticate`. -/
def pendingApprovalMsg : String :=
  "Your account is pending approval. Please wait for an admin to approve your account."

/-- `authenticate` (approval-aware variant, `authMiddleware.ts`):
`!authHeader` is JS truthiness, so a missing header and an empty-string
header both take the no-token branch; then the header is split on a
space and must be exactly `["Bearer", token]`; then `verifyToken`; then
the user is fetched from storage (`store`) and an unapproved influencer
is rejected with 403 before anything else runs; otherwise the stored
record's fields are attached to the request. -/
def authenticate (verify : String → Option JWTPayload)
    (store : String → Option DbUser) (authHeader : Option String) : AuthOutcome :=
  match authHeader with
  | none => .reject 401 noTokenMsg
  | some h =>
    if h = "" then .reject 401 noTokenMsg
    else
      let parts := jsSplit h ' '
      if parts.length != 2 || parts.headD "" != "Bearer" then
        .reject 401 invalidFormatMsg
      else
        match verify (parts.getD 1 "") with
        | none => .reject 401 invalidTokenMsg
        | some decoded =>
          match store decoded.userId with
          | none => .reject 401 "User not found"
          | some u =>
            if u.role == "influencer" && !u.isApproved then
              .reject 403 pendingApprovalMsg
            else
              .proceed { userId := u.id, email := u.email, role := u.role }

/-- `authorize(...roles)`: 401 when unauthenticated, 403 when the user's
role is not in the list, otherwise `next()`. There is no admin branch. -/
def authorize (roles : List String) (user : Option User) : GateResult :=
  match user with
  | none => .reject 401 "Authentication required"
  | some u =>
    if !roles.contains u.role then
      .reject 403 ("Insufficient permissions. Required roles: " ++ String.intercalate ", " roles)
    else
      .pass

/-- `requireAnyRole(...roles)`: 401 when unauthenticated, admin always
passes, otherwise the role must be in the list. -/
def requireAnyRole (roles : List String) (user : Option User) : GateResult :=
  match user with
  | none => .reject 401 "Authentication required"
  | some u =>
    if isAdmin u.role then
      .pass
    else if !roles.contains u.role then
      .reject 403 ("Insufficient permissions. Required one of: " ++ String.intercalate ", " roles)
    else
      .pass

/-- `requireAllRoles(...roles)`: identical decision structure to
`requireAnyRole`, with a different rejection message. -/
def requireAllRoles (roles : List String) (user : Option User) : GateResult :=
  match user with
  | none => .reject 401 "Authentication required"
  | some u =>
    if isAdmin u.role then
      .pass
    else if !roles.contains u.role then
      .reject 403 ("Insufficient permissions. Required all of: " ++ String.intercalate ", " roles)
    else
      .pass

/-- A non-array request value as seen by `requireOwnershipOrRole`:
absent, a string, or some other truthy non-string JSON value (object,
number, boolean — they all fail the `typeof resourceId !== 'string'`
check the same way). `req.params` values are only ever `undefinedVal`/`str`. -/
inductive JsScalar where
  | undefinedVal
  | str (s : String)
  | otherTruthy
  deriving DecidableEq, Repr

/-- A request parameter value: a scalar or an array of scalars. -/
inductive JsParam where
  | scalar (v : JsScalar)
  | arr (l : List JsScalar)
  deriving DecidableEq, Repr

/-- JS truthiness of a parameter value: `undefined` and `""` are falsy;
arrays (even empty) and the other modelled values are truthy. -/
def JsParam.truthy : JsParam → Bool
  | .scalar .undefinedVal => false
  | .scalar (.str s) => s != ""
  | .scalar .otherTruthy => true
  | .arr _ => true

/-- The extraction step of `requireOwnershipOrRole`:
`req.params[p] || req.body[p]` (JS `||` takes `bodyVal` when `paramsVal`
is falsy), then `Array.isArray(paramValue) ? paramValue[0] : paramValue`
(the head of an empty array is `undefined`). -/
def extractResourceId (paramsVal bodyVal : JsParam) : JsScalar :=
  let paramValue := if paramsVal.truthy then paramsVal else bodyVal
  match paramValue with
  | .arr l => l.headD .undefinedVal
  | .scalar v => v

/-- Message of the bad-request rejection in `requireOwnershipOrRole`. -/
def resourceIdRequiredMsg : String :=
  "Resource ID is required"

/-- Message of the forbidden rejection in `requireOwnershipOrRole`. -/
def ownershipForbiddenMsg : String :=
  "You do not have permission to access this resource"

/-- `requireOwnershipOrRole(param, ...allowedRoles)`: 401 when
unauthenticated; admin always passes; a role in `allowedRoles` passes;
otherwise the extracted resource id must be a truthy string
(`!resourceId || typeof resourceId !== 'string'` rejects `undefined`,
the empty string, arrays and other non-strings with 400) and must equal
`req.user.userId`, else 403. -/
def requireOwnershipOrRole (allowedRoles : List String) (user : Option User)
    (paramsVal bodyVal : JsParam) : GateResult :=
  match user with
  | none => .reject 401 "Authentication required"
  | some u =>
    if isAdmin u.role then
      .pass
    else if allowedRoles.length > 0 && allowedRoles.contains u.role then
      .pass
    else
      match extractResourceId paramsVal bodyVal with
      | .str s =>
        if s = "" then .reject 400 resourceIdRequiredMsg
        else if s == u.userId then .pass
        else .reject 403 ownershipForbiddenMsg
      | _ => .reject 400 resourceIdRequiredMsg

/-! ## Theorems -/

/-- Claim C1: for every permission and every resource value (including
`none`), `canAccessResource` returns `true` whenever the identity's role
is `admin`; the verdict is independent of the role-permission lookup
(the bypass holds under every lookup function, including one that denies
admin every permission). -/
theorem admin_bypass_canAccessResource (u : User) (res : Option Resource)
    (a : Permission) (hadm : u.role = "admin") :
    canAccessResource u res a = true ∧
      ∀ hasPerm : String → Permission → Bool,
        canAccessResourceWith hasPerm u res a = true := by
  constructor
  · simp [canAccessResource, canAccessResourceWith, isAdmin, hadm]
  · intro hasPerm
    simp [canAccessResourceWith, isAdmin, hadm]

/-- Witness for C1: an admin identity accesses a null resource under a
permission, even under a lookup that grants no permission at all. -/
theorem admin_bypass_canAccessResource_witness :
    canAccessResource ⟨"a1", "a@x", "admin"⟩ none Permission.SETTINGS_MANAGE = true ∧
      canAccessResourceWith (fun _ _ => false) ⟨"a1", "a@x", "admin"⟩ none
        Permission.SETTINGS_MANAGE = true :=
  ⟨(admin_bypass_canAccessResource ⟨"a1", "a@x", "admin"⟩ none
      Permission.SETTINGS_MANAGE rfl).1,
   (admin_bypass_canAccessResource ⟨"a1", "a@x", "admin"⟩ none
      Permission.SETTINGS_MANAGE rfl).2 (fun _ _ => false)⟩

/-- Counterexample to claim C2: the user `{userId := "", role := "user"}`
holds the own-scoped permission `users:read:own`, the resource is
non-null and its `ownerId` is present and equal to `userId` (both are
`""`), yet `canAccessResource` returns `false`, because the JS guard
`!resource.ownerId` treats the empty string as absent. -/
theorem canAccessResource_empty_ownerId_cex :
    roleHasPermission "user" Permission.USERS_READ_OWN = true ∧
      strIncludes (Permission.value .USERS_READ_OWN) ":own" = true ∧
      (⟨some ""⟩ : Resource).ownerId = some (⟨"", "e@x", "user"⟩ : User).userId ∧
      canAccessResource ⟨"", "e@x", "user"⟩ (some ⟨some ""⟩)
        Permission.USERS_READ_OWN = false := by
  decide

/-- Claim C2 (amended): for a non-admin identity, no permission means
deny; an own-scoped held permission allows exactly when the resource is
non-null with a present, NON-EMPTY `ownerId` equal to `userId`; a held
permission that is not own-scoped allows regardless of the resource. -/
theorem canAccessResource_nonadmin_cases (u : User) (res : Option Resource)
    (a : Permission) (hadm : u.role ≠ "admin") :
    (roleHasPermission u.role a = false → canAccessResource u res a = false) ∧
      (roleHasPermission u.role a = true → strIncludes a.value ":own" = true →
        (canAccessResource u res a = true ↔
          ∃ r oid, res = some r ∧ r.ownerId = some oid ∧ oid ≠ "" ∧ oid = u.userId)) ∧
      (roleHasPermission u.role a = true → strIncludes a.value ":own" = false →
        canAccessResource u res a = true) := by
  have hA : isAdmin u.role = false := by
    simp only [isAdmin, beq_eq_false_iff_ne, ne_eq]
    exact hadm
  refine ⟨?_, ?_, ?_⟩
  · intro hperm
    simp [canAccessResource, canAccessResourceWith, hA, hperm]
  · intro hperm hown
    simp only [canAccessResource, canAccessResourceWith, hA, hperm, hown,
      Bool.false_eq_true, if_false, Bool.not_true, if_true]
    cases res with
    | none => simp
    | some r =>
      cases hr : r.ownerId with
      | none => simp [hr]
      | some oid =>
        by_cases he : oid = ""
        · subst he
          simp [hr]
          exact fun h => h.symm
        · simp [hr, he, beq_iff_eq]
          exact fun h hc => he (h.trans hc)
  · intro hperm hown
    simp [canAccessResource, canAccessResourceWith, hA, hperm, hown]

/-- Witness for C2 (amended): a regular user holding `content:read:all`
may read a resource they do not own. -/
theorem canAccessResource_nonadmin_cases_witness :
    canAccessResource ⟨"u1", "e@x", "user"⟩ (some ⟨some "u2"⟩)
      Permission.CONTENT_READ_ALL = true :=
  (canAccessResource_nonadmin_cases ⟨"u1", "e@x", "user"⟩ (some ⟨some "u2"⟩)
      Permission.CONTENT_READ_ALL (by decide)).2.2 (by decide) (by decide)

/-- Claim C10: there is a non-admin identity owning a resource and a
permission pair where the role holds the `allAction` but not the
`ownAction`; there `canAccessResourceOrOwn` denies although
`canAccessResource` with the `allAction` alone allows — ownership makes
the verdict strictly stricter. -/
theorem ownership_strictly_reduces_access :
    isAdmin (⟨"u1", "e@x", "user"⟩ : User).role = false ∧
      roleHasPermission "user" Permission.CONTENT_READ_ALL = true ∧
      roleHasPermission "user" Permission.USERS_DELETE_ALL = false ∧
      (⟨some "u1"⟩ : Resource).ownerId = some (⟨"u1", "e@x", "user"⟩ : User).userId ∧
      canAccessResourceOrOwn ⟨"u1", "e@x", "user"⟩ (some ⟨some "u1"⟩)
        Permission.USERS_DELETE_ALL Permission.CONTENT_READ_ALL = false ∧
      canAccessResource ⟨"u1", "e@x", "user"⟩ (some ⟨some "u1"⟩)
        Permission.CONTENT_READ_ALL = true := by
  decide

/-- Counterexample to claim C3: `authorize` has no admin bypass — an
authenticated admin identity is rejected with 403 when `"admin"` is not
among the target roles, while `requireAnyRole` lets the same identity
through. -/
theorem authorize_admin_not_bypassed_cex :
    authorize ["user"] (some ⟨"a1", "a@x", "admin"⟩) =
        GateResult.reject 403 "Insufficient permissions. Required roles: user" ∧
      authorize ["user"] (some ⟨"a1", "a@x", "admin"⟩) ≠ GateResult.pass ∧
      requireAnyRole ["user"] (some ⟨"a1", "a@x", "admin"⟩) = GateResult.pass := by
  decide

/-- Claim C3 (amended): for every authenticated admin identity and every
role list, `requireAnyRole` passes; `authorize` passes exactly when
`"admin"` is itself a member of the list (it performs no admin bypass). -/
theorem role_gates_admin_amended (roles : List String) (u : User)
    (hadm : u.role = "admin") :
    requireAnyRole roles (some u) = GateResult.pass ∧
      (authorize roles (some u) = GateResult.pass ↔ "admin" ∈ roles) := by
  have hmemiff : roles.contains "admin" = true ↔ "admin" ∈ roles := by simp
  constructor
  · simp [requireAnyRole, isAdmin, hadm]
  · cases h : roles.contains "admin" with
    | true =>
      simp only [authorize, hadm, h, Bool.not_true, Bool.false_eq_true, if_false]
      simpa using hmemiff.mp h
    | false =>
      simp only [authorize, hadm, h, Bool.not_false, if_true]
      constructor
      · intro hc
        exact absurd hc (by simp)
      · intro hmem
        rw [hmemiff.mpr hmem] at h
        exact absurd h (by simp)

/-- Witness for C3 (amended): admin with a non-admin target list. -/
theorem role_gates_admin_amended_witness :
    requireAnyRole ["influencer"] (some ⟨"a1", "a@x", "admin"⟩) = GateResult.pass ∧
      (authorize ["influencer"] (some ⟨"a1", "a@x", "admin"⟩) = GateResult.pass ↔
        "admin" ∈ ["influencer"]) :=
  role_gates_admin_amended ["influencer"] ⟨"a1", "a@x", "admin"⟩ rfl

/-- Claim C5: verifying a token produced by `generateToken` for an
identity, with the same configuration (secret), within the expiry
window, yields a payload whose `userId`, `email` and `role` are the
issued identity's fields. -/
theorem token_round_trip (cfg : JWTConfig) (user : UserWithoutPassword)
    (issuedAt verifyTime : Nat) (hexp : verifyTime < issuedAt + cfg.expiresIn) :
    verifyToken cfg (generateToken cfg user issuedAt) verifyTime =
      some ⟨user.id, user.email, user.role⟩ := by
  simp [verifyToken, generateToken, jwtSign, jwtVerify, hexp]

/-- Witness for C5: a concrete round trip within the expiry window. -/
theorem token_round_trip_witness :
    verifyToken ⟨"s3cret", 604800⟩
        (generateToken ⟨"s3cret", 604800⟩ ⟨"u1", "e@x", "user"⟩ 1000) 2000 =
      some ⟨"u1", "e@x", "user"⟩ :=
  token_round_trip ⟨"s3cret", 604800⟩ ⟨"u1", "e@x", "user"⟩ 1000 2000 (by decide)

/-- The simplified registry agrees with the full JS lookup on every role
string that is not an `Object.prototype` property name: there
`roleHasPermissionJs` returns normally with the simplified verdict. -/
theorem roleHasPermissionJs_agrees (role : String) (p : Permission)
    (h : objectPrototypeKeys.contains role = false) :
    roleHasPermissionJs role p = Except.ok (roleHasPermission role p) := by
  have hmem : role ∉ objectPrototypeKeys := by simpa using h
  by_cases h1 : role = "admin"
  · simp [roleHasPermissionJs, roleHasPermission, rolePermissionsLookup,
      lookupRolePermissions, h1]
  · by_cases h2 : role = "influencer"
    · simp [roleHasPermissionJs, roleHasPermission, rolePermissionsLookup,
        lookupRolePermissions, h1, h2]
    · by_cases h3 : role = "user"
      · simp [roleHasPermissionJs, roleHasPermission, rolePermissionsLookup,
          lookupRolePermissions, h1, h2, h3]
      · simp [roleHasPermissionJs, roleHasPermission, rolePermissionsLookup,
          lookupRolePermissions, h1, h2, h3, hmem]

/-- Same agreement for `getRolePermissions`: away from
`Object.prototype` property names the full lookup returns the simplified
list (in particular `[]` for an unknown role). -/
theorem getRolePermissionsJs_agrees (role : String)
    (h : objectPrototypeKeys.contains role = false) :
    getRolePermissionsJs role = JsLookup.perms (getRolePermissions role) := by
  have hmem : role ∉ objectPrototypeKeys := by simpa using h
  by_cases h1 : role = "admin"
  · simp [getRolePermissionsJs, getRolePermissions, rolePermissionsLookup, h1]
  · by_cases h2 : role = "influencer"
    · simp [getRolePermissionsJs, getRolePermissions, rolePermissionsLookup, h1, h2]
    · by_cases h3 : role = "user"
      · simp [getRolePermissionsJs, getRolePermissions, rolePermissionsLookup,
          h1, h2, h3]
      · simp [getRolePermissionsJs, getRolePermissions, rolePermissionsLookup,
          h1, h2, h3, hmem]

/-- Claim C8 (code bug): the role string `"constructor"` is not an
enumerated role, yet the object-literal lookup hits `Object.prototype`
and returns the inherited, truthy constructor function. So
`roleHasPermission` skips its deny guard and throws a `TypeError`
calling `.includes` on a non-array (for every permission), and
`getRolePermissions` returns the inherited value instead of the empty
list — contradicting deny-by-default totality at this input. -/
theorem unknown_role_prototype_bug :
    rolePermissionsLookup "constructor" = JsLookup.inherited ∧
      (∀ p : Permission,
        roleHasPermissionJs "constructor" p = Except.error includesTypeErrorMsg) ∧
      getRolePermissionsJs "constructor" = JsLookup.inherited ∧
      JsLookup.inherited ≠ JsLookup.perms [] := by
  exact ⟨rfl, fun _ => rfl, rfl, by decide⟩

/-- Claim C9: for every authenticated identity and every role list,
`requireAllRoles` passes the request through exactly when
`requireAnyRole` does — both admin-bypass first, then test membership of
the identity's single role in the list. -/
theorem requireAllRoles_equiv_requireAnyRole (roles : List String) (u : User) :
    requireAllRoles roles (some u) = GateResult.pass ↔
      requireAnyRole roles (some u) = GateResult.pass := by
  simp only [requireAllRoles, requireAnyRole]
  cases h1 : isAdmin u.role <;> cases h2 : roles.contains u.role <;> simp [h1, h2]

/-- Witness for C9: a concrete identity and role list on both sides. -/
theorem requireAllRoles_equiv_requireAnyRole_witness :
    requireAllRoles ["user", "influencer"] (some ⟨"u1", "e@x", "influencer"⟩) =
        GateResult.pass ↔
      requireAnyRole ["user", "influencer"] (some ⟨"u1", "e@x", "influencer"⟩) =
        GateResult.pass :=
  requireAllRoles_equiv_requireAnyRole ["user", "influencer"]
    ⟨"u1", "e@x", "influencer"⟩

/-- Claim C4: a bearer token that verifies and resolves to a stored user
with role `influencer` and `isApproved = false` is rejected by
`authenticate` itself with 403 and the distinct pending-approval message
(so no downstream authorization middleware ever runs); after the stored
record's `isApproved` flips to `true`, the very same token is accepted
and the stored record is attached to the request. -/
theorem authenticate_approval_gate (verify : String → Option JWTPayload)
    (store store2 : String → Option DbUser) (token : String)
    (payload : JWTPayload) (u : DbUser)
    (hsplit : jsSplit ("Bearer " ++ token) ' ' = ["Bearer", token])
    (hver : verify token = some payload)
    (hst : store payload.userId = some u)
    (hrole : u.role = "influencer") (happ : u.isApproved = false)
    (hst2 : store2 payload.userId = some { u with isApproved := true }) :
    authenticate verify store (some ("Bearer " ++ token)) =
        AuthOutcome.reject 403 pendingApprovalMsg ∧
      pendingApprovalMsg ≠ invalidTokenMsg ∧
      authenticate verify store2 (some ("Bearer " ++ token)) =
        AuthOutcome.proceed ⟨u.id, u.email, u.role⟩ := by
  have hne : ("Bearer " ++ token) ≠ "" := by
    intro h
    rw [h] at hsplit
    simp [jsSplit, splitCharAux] at hsplit
  refine ⟨?_, by decide, ?_⟩
  · simp only [authenticate, if_neg hne, hsplit]
    simp [hver, hst, hrole, happ]
  · simp only [authenticate, if_neg hne, hsplit]
    simp [hver, hst2, hrole]

/-- Witness for C4: a concrete verifier, store and token go through the
pending-approval rejection and, after approval, through to the handler. -/
theorem authenticate_approval_gate_witness :
    authenticate
        (fun t => if t = "tok" then some ⟨"u1", "e@x", "influencer"⟩ else none)
        (fun i => if i = "u1" then some ⟨"u1", "e@x", "influencer", false⟩ else none)
        (some ("Bearer " ++ "tok")) = AuthOutcome.reject 403 pendingApprovalMsg ∧
      pendingApprovalMsg ≠ invalidTokenMsg ∧
      authenticate
        (fun t => if t = "tok" then some ⟨"u1", "e@x", "influencer"⟩ else none)
        (fun i => if i = "u1" then some ⟨"u1", "e@x", "influencer", true⟩ else none)
        (some ("Bearer " ++ "tok")) =
        AuthOutcome.proceed ⟨"u1", "e@x", "influencer"⟩ :=
  authenticate_approval_gate
    (fun t => if t = "tok" then some ⟨"u1", "e@x", "influencer"⟩ else none)
    (fun i => if i = "u1" then some ⟨"u1", "e@x", "influencer", false⟩ else none)
    (fun i => if i = "u1" then some ⟨"u1", "e@x", "influencer", true⟩ else none)
    "tok" ⟨"u1", "e@x", "influencer"⟩ ⟨"u1", "e@x", "influencer", false⟩
    (by decide) rfl rfl rfl rfl rfl

/-- Counterexample to claim C6: an empty-string `Authorization` header is
falsy in JS, so `authenticate` rejects it with the missing-header
message, not the invalid-format message the claim requires. -/
theorem authenticate_empty_header_cex :
    authenticate (fun _ => none) (fun _ => none) (some "") =
        AuthOutcome.reject 401 noTokenMsg ∧
      noTokenMsg ≠ invalidFormatMsg := by
  exact ⟨rfl, by decide⟩

/-- Claim C6 (amended): for every verifier and store (so verification is
never consulted), the headers `"Token xyz"` and `"Bearer"` are rejected
with the invalid-format message and the empty-string header with the
missing-header message; both messages differ from the failed-verification
message. -/
theorem authenticate_malformed_header_amended
    (verify : String → Option JWTPayload) (store : String → Option DbUser) :
    authenticate verify store (some "Token xyz") =
        AuthOutcome.reject 401 invalidFormatMsg ∧
      authenticate verify store (some "Bearer") =
        AuthOutcome.reject 401 invalidFormatMsg ∧
      authenticate verify store (some "") = AuthOutcome.reject 401 noTokenMsg ∧
      invalidFormatMsg ≠ invalidTokenMsg ∧
      noTokenMsg ≠ invalidTokenMsg := by
  exact ⟨rfl, rfl, rfl, by decide, by decide⟩

/-- Witness for C6 (amended): concrete verifier and store. -/
theorem authenticate_malformed_header_amended_witness :
    authenticate (fun _ => none) (fun _ => none) (some "Token xyz") =
        AuthOutcome.reject 401 invalidFormatMsg ∧
      authenticate (fun _ => none) (fun _ => none) (some "Bearer") =
        AuthOutcome.reject 401 invalidFormatMsg ∧
      authenticate (fun _ => none) (fun _ => none) (some "") =
        AuthOutcome.reject 401 noTokenMsg ∧
      invalidFormatMsg ≠ invalidTokenMsg ∧
      noTokenMsg ≠ invalidTokenMsg :=
  authenticate_malformed_header_amended (fun _ => none) (fun _ => none)

/-- Counterexample to claim C7: the extracted resource identifier is the
string `""` and it equals `identity.userId`, so the claim requires the
request to pass; the code rejects it with 400 because `!resourceId`
treats the empty string as missing. -/
theorem requireOwnershipOrRole_empty_string_cex :
    extractResourceId (.scalar .undefinedVal) (.scalar (.str "")) = .str "" ∧
      (⟨"", "e@x", "user"⟩ : User).userId = "" ∧
      requireOwnershipOrRole [] (some ⟨"", "e@x", "user"⟩) (.scalar .undefinedVal)
        (.scalar (.str "")) = GateResult.reject 400 resourceIdRequiredMsg ∧
      GateResult.reject 400 resourceIdRequiredMsg ≠ GateResult.pass := by
  decide

/-- Claim C7 (amended): admin passes; a bypass role passes; otherwise a
NON-EMPTY string identifier passes exactly when it equals
`identity.userId`, else 403; an identifier that is absent, not a string,
or the EMPTY string is rejected with 400, a distinct status and message
from the forbidden denial. -/
theorem requireOwnershipOrRole_amended (allowedRoles : List String) (u : User)
    (paramsVal bodyVal : JsParam) :
    (u.role = "admin" →
        requireOwnershipOrRole allowedRoles (some u) paramsVal bodyVal =
          GateResult.pass) ∧
      (u.role ≠ "admin" → allowedRoles.contains u.role = true →
        requireOwnershipOrRole allowedRoles (some u) paramsVal bodyVal =
          GateResult.pass) ∧
      (u.role ≠ "admin" → allowedRoles.contains u.role = false →
        ∀ s : String, extractResourceId paramsVal bodyVal = .str s → s ≠ "" →
          (requireOwnershipOrRole allowedRoles (some u) paramsVal bodyVal =
              GateResult.pass ↔ s = u.userId) ∧
            (s ≠ u.userId →
              requireOwnershipOrRole allowedRoles (some u) paramsVal bodyVal =
                GateResult.reject 403 ownershipForbiddenMsg)) ∧
      (u.role ≠ "admin" → allowedRoles.contains u.role = false →
        (extractResourceId paramsVal bodyVal = .str "" ∨
            ∀ s, extractResourceId paramsVal bodyVal ≠ .str s) →
        requireOwnershipOrRole allowedRoles (some u) paramsVal bodyVal =
          GateResult.reject 400 resourceIdRequiredMsg) ∧
      ((400 : Nat) ≠ 403 ∧ resourceIdRequiredMsg ≠ ownershipForbiddenMsg) := by
  refine ⟨?_, ?_, ?_, ?_, by decide⟩
  · intro hadm
    simp [requireOwnershipOrRole, isAdmin, hadm]
  · intro hadm hcont
    have hA : isAdmin u.role = false := by
      simp only [isAdmin, beq_eq_false_iff_ne, ne_eq]
      exact hadm
    have hlen : 0 < allowedRoles.length := by
      cases allowedRoles with
      | nil => simp at hcont
      | cons a t => simp
    have hmem : u.role ∈ allowedRoles := by simpa using hcont
    simp [requireOwnershipOrRole, hA, hlen, hmem]
  · intro hadm hcont s hext hsne
    have hA : isAdmin u.role = false := by
      simp only [isAdmin, beq_eq_false_iff_ne, ne_eq]
      exact hadm
    simp only [requireOwnershipOrRole, hA, hcont, Bool.false_eq_true, if_false,
      Bool.and_false, hext, if_neg hsne]
    constructor
    · cases h : (s == u.userId) with
      | true =>
        simp only [if_true, beq_iff_eq] at h ⊢
        simpa using h
      | false =>
        simp only [Bool.false_eq_true, if_false]
        rw [beq_eq_false_iff_ne] at h
        simp [h]
    · intro hne
      have h : (s == u.userId) = false := beq_eq_false_iff_ne.mpr hne
      simp [h]
  · intro hadm hcont hbad
    have hA : isAdmin u.role = false := by
      simp only [isAdmin, beq_eq_false_iff_ne, ne_eq]
      exact hadm
    simp only [requireOwnershipOrRole, hA, hcont, Bool.false_eq_true, if_false,
      Bool.and_false]
    cases hbad with
    | inl hempty => simp [hempty]
    | inr hnostr =>
      cases hext : extractResourceId paramsVal bodyVal with
      | undefinedVal => simp
      | str s => exact absurd hext (hnostr s)
      | otherTruthy => simp

/-- Witness for C7 (amended): a non-admin identity with no bypass role
and a matching non-empty string identifier passes. -/
theorem requireOwnershipOrRole_amended_witness :
    (requireOwnershipOrRole [] (some ⟨"u1", "e@x", "user"⟩)
          (JsParam.scalar (.str "u1")) (JsParam.scalar .undefinedVal) = GateResult.pass ↔
        "u1" = (⟨"u1", "e@x", "user"⟩ : User).userId) ∧
      ("u1" ≠ (⟨"u1", "e@x", "user"⟩ : User).userId →
        requireOwnershipOrRole [] (some ⟨"u1", "e@x", "user"⟩)
            (JsParam.scalar (.str "u1")) (JsParam.scalar .undefinedVal) =
          GateResult.reject 403 ownershipForbiddenMsg) :=
  (requireOwnershipOrRole_amended [] ⟨"u1", "e@x", "user"⟩
      (JsParam.scalar (.str "u1")) (JsParam.scalar .undefinedVal)).2.2.1
    (by decide) (by decide) "u1" (by decide) (by decide)

end AskMi
